import Mathlib

/-!
Verification of the graph simulation and interaction layer of the Synapse
repository against its natural-language specification.

The definitions below are shallow embeddings of the TypeScript source:
  - src/unnamed/part_004 (the application layer, App.tsx): link collection
    maintenance, node-record replacement, agent-call orchestration;
  - src/unnamed/part_000, src/unnamed/part_001, src/services/geminiService.ts
    (the agent service layer): each agent call embedded as a function from an
    explicit call outcome to an Except value, mirroring its try/catch shape;
  - src/components/GraphCanvas.tsx: the interaction state machine (click and
    connect handlers), the drag handlers, the simulation control calls, and
    the view-transform controls.
Positions and scales are modelled as rationals.  Behavior of the external
layout/zoom library that the source delegates to (force integration, node
initialization, scale clamping, drag click suppression) is modelled from the
specification and flagged as such in each doc comment.
-/

namespace Synapse

/-! ## Data model -/

/-- Node record of the graph data store (NodeData in types.ts): a stable id,
content attributes, and the mutable simulated position, which is absent until
the layout engine assigns one. -/
structure NodeRec where
  id : String
  label : String
  content : String
  selectedForRoadmap : Bool
  x : Option ℚ
  y : Option ℚ
  deriving DecidableEq

/-- Link record (LinkData): an ordered pair of node ids. -/
structure Link where
  source : String
  target : String
  deriving DecidableEq

/-! ## Application layer: link collection (src/unnamed/part_004, addLink) -/

/-- Predicate used by addLink's duplicate check: the stored link carries
exactly this ordered (source, target) id pair.  In the source the stored
endpoint may be a node object or a raw id; either way the comparison is on
the id, which is what this embedding keeps. -/
def linkMatches (s t : String) (l : Link) : Bool :=
  l.source == s && l.target == t

/-- From src/unnamed/part_004 lines 243-252 (addLink): append the ordered
pair unless a link with the same ordered id pair already exists. -/
def addLink (source target : String) (prev : List Link) : List Link :=
  if prev.any (linkMatches source target) then prev
  else prev ++ [⟨source, target⟩]

/-- Number of occurrences of the ordered (s, t) pair in the link collection. -/
def countPair (s t : String) (ls : List Link) : Nat :=
  ls.countP (linkMatches s t)

/-- A sequence of calls to addLink, applied in order to an initial
collection. -/
def applyLinkCalls (calls : List (String × String)) (init : List Link) : List Link :=
  calls.foldl (fun acc c => addLink c.1 c.2 acc) init

/-! ## Application layer: node-record replacement (src/unnamed/part_004,
toggleNodeSelection lines 593-600) -/

/-- Per-record step of toggleNodeSelection: the matching record is replaced by
a fresh record via object spread, which copies every field - including the
position the layout engine wrote onto the record - and flips only
selectedForRoadmap; all other records are passed through unchanged. -/
def toggleNode (nodeId : String) (n : NodeRec) : NodeRec :=
  if n.id = nodeId then { n with selectedForRoadmap := !n.selectedForRoadmap } else n

/-- From src/unnamed/part_004 lines 593-600 (toggleNodeSelection): replace the
node collection by mapping toggleNode over it. -/
def toggleNodeSelection (nodeId : String) (nodes : List NodeRec) : List NodeRec :=
  nodes.map (toggleNode nodeId)

/-- Modelled from the spec: the layout engine's node re-seeding step (the
simulation update effect in src/components/GraphCanvas.tsx lines 85-98 hands
the incoming records to the external force simulation, whose initialization
is not in the repository).  Per the reconciliation rule, an incoming record
that already carries a position keeps it; only a record with no position is
assigned a default coordinate. -/
def seedNode (dflt : String → ℚ × ℚ) (n : NodeRec) : NodeRec :=
  match n.x, n.y with
  | some _, some _ => n
  | _, _ => { n with x := some (dflt n.id).1, y := some (dflt n.id).2 }

/-- Modelled from the spec: re-seeding of the whole incoming node list by the
layout engine on a data change. -/
def seedNodes (dflt : String → ℚ × ℚ) (nodes : List NodeRec) : List NodeRec :=
  nodes.map (seedNode dflt)

/-- Lookup of a node record by id. -/
def findById (nodes : List NodeRec) (nodeId : String) : Option NodeRec :=
  nodes.find? (fun n => n.id == nodeId)

/-! ## Agent service layer (src/unnamed/part_000, src/unnamed/part_001,
src/services/geminiService.ts)

Each service function wraps one model call in a try block.  The embedding
makes the outcome of that model call an explicit argument and maps it through
the function's own guard, fallback and catch logic, so what a function does
on each failure mode is exactly what its catch clause does in the source. -/

/-- Outcome of a plain text-returning model call: the call threw, returned no
text, or returned text. -/
inductive TextOutcome where
  | throws
  | noText
  | text (t : String)
  deriving DecidableEq

/-- Outcome of a JSON-returning model call: the call threw, returned no text,
returned text that fails to parse, or returned a parsed value. -/
inductive JsonOutcome (α : Type) where
  | throws
  | noText
  | badJson
  | json (a : α)
  deriving DecidableEq

/-- Outcome of the image-generation model call: the call threw, returned no
inline image part, or returned inline image data. -/
inductive ImageOutcome where
  | throws
  | noImagePart
  | image (data : String)
  deriving DecidableEq

/-- Error value standing for the exception a service function rethrows. -/
inductive AgentError where
  | apiFailure
  deriving DecidableEq

/-- One brainstormed topic (BrainstormResult item in types.ts). -/
structure BrainstormTopic where
  title : String
  context : String
  deriving DecidableEq

/-- Result of the expert brainstorming call (BrainstormResult). -/
structure BrainstormResult where
  topics : List BrainstormTopic
  deriving DecidableEq

/-- Result of the topic elaboration call (TopicContentResult). -/
structure TopicContentResult where
  title : String
  explanation : String
  imagePrompt : String
  deriving DecidableEq

/-- True when the call resolved (did not propagate an exception). -/
def isOkExcept {α : Type} : Except AgentError α → Bool
  | .ok _ => true
  | .error _ => false

/-- From src/unnamed/part_000 and src/unnamed/part_001 lines 10-27
(gatekeeperTranslate; the single-argument variant in
src/services/geminiService.ts has the same guard and catch): empty input
returns a fixed string before the model call; a thrown model error is logged
and rethrown; missing text degrades to a fallback string. -/
def gatekeeperTranslate (userRole userInput : String) (o : TextOutcome) :
    Except AgentError String :=
  if userInput = "" then .ok "No input provided."
  else
    match o with
    | .throws => .error .apiFailure
    | .noText => .ok "Could not extract principle."
    | .text t => .ok t

/-- Number of model invocations performed by gatekeeperTranslate for the
given arguments: the empty-input guard returns before the single
generateContent call is reached. -/
def gatekeeperModelCalls (userRole userInput : String) : Nat :=
  if userInput = "" then 0 else 1

/-- From src/unnamed/part_001 lines 51-89 (getExpertBrainstorm): every
failure path (thrown call, missing text, JSON parse failure) is caught and
degraded to a single placeholder topic. -/
def getExpertBrainstorm (principle role systemPrompt : String)
    (o : JsonOutcome BrainstormResult) : Except AgentError BrainstormResult :=
  match o with
  | .json r => .ok r
  | _ => .ok ⟨[⟨"Analysis Failed",
      "Could not retrieve external data for " ++ role ++
        ". The API key may not have permissions for Search Grounding."⟩]⟩

/-- From src/unnamed/part_001 lines 94-123 (generateTopicContent): a thrown
call, missing text, or parse failure is caught, logged and rethrown. -/
def generateTopicContent (topicTitle topicContext expertRole : String)
    (o : JsonOutcome TopicContentResult) : Except AgentError TopicContentResult :=
  match o with
  | .json r => .ok r
  | _ => .error .apiFailure

/-- From src/unnamed/part_001 (generateConceptImage, identical in part_000
and geminiService.ts): a thrown call or a response with no inline image part
degrades to no image. -/
def generateConceptImage (prompt : String) (o : ImageOutcome) :
    Except AgentError (Option String) :=
  match o with
  | .throws => .ok none
  | .noImagePart => .ok none
  | .image d => .ok (some ("data:image/png;base64," ++ d))

/-- From src/unnamed/part_001 (synthesizeRoadmap, same catch shape in
part_000 and geminiService.ts): a thrown call is logged and rethrown; missing
text degrades to a fallback string. -/
def synthesizeRoadmap (userRole principle : String) (selected : List String)
    (o : TextOutcome) : Except AgentError String :=
  match o with
  | .throws => .error .apiFailure
  | .noText => .ok "Could not synthesize roadmap."
  | .text t => .ok t

/-- From src/unnamed/part_001 (generateDeepConnection): a thrown call is
caught and degraded to a fixed error string; missing text degrades to a
fallback string. -/
def generateDeepConnection (userRole userTopicInfo conceptTitle conceptContent
    expertRole : String) (o : TextOutcome) : Except AgentError String :=
  match o with
  | .throws => .ok "Error generating analysis."
  | .noText => .ok "Could not generate deep dive analysis."
  | .text t => .ok t

/-- From src/unnamed/part_004 (handleStart): the application layer wraps the
principle-distillation call in its own try/catch and converts a propagated
failure into a status message. -/
def handleStartStatus (role userInput : String) (o : TextOutcome) : String :=
  match gatekeeperTranslate role userInput o with
  | .ok _ => "Principle extracted. Ready for experts."
  | .error _ => "Error processing input."

/-! ## Interaction state machine (src/components/GraphCanvas.tsx lines 197-215) -/

/-- Local UI state of the canvas: the connect-mode flag and the pending
source-node selection. -/
structure UIState where
  connectionMode : Bool
  sourceNode : Option String
  deriving DecidableEq

/-- Discrete domain event emitted by the click handler: a link-creation
request (onConnect) or a node-click (onNodeClick). -/
inductive OutEvent where
  | connect (sourceId targetId : String)
  | nodeClick (nodeId : String)
  deriving DecidableEq

/-- From src/components/GraphCanvas.tsx lines 197-215 (the node click
handler): a default-prevented click (drag end) is ignored; in connection mode
the first click records the source, a click on a different node emits one
connect request and exits connection mode, and a click on the source node
clears the selection; outside connection mode the click emits a node-click
event. -/
def handleNodeClick (st : UIState) (clickedId : String) (defaultPrevented : Bool) :
    UIState × List OutEvent :=
  if defaultPrevented then (st, [])
  else if st.connectionMode then
    match st.sourceNode with
    | none => ({ st with sourceNode := some clickedId }, [])
    | some src =>
      if clickedId ≠ src then
        ({ connectionMode := false, sourceNode := none }, [OutEvent.connect src clickedId])
      else
        ({ st with sourceNode := none }, [])
  else (st, [OutEvent.nodeClick clickedId])

/-- Modelled from the spec: the external drag behavior marks the click event
that ends a pointer sequence as default-prevented exactly when the pointer
moved beyond the click threshold, so a completed drag reaches the click
handler of src/components/GraphCanvas.tsx line 198 with the flag set. -/
def dragClickDefaultPrevented (movedBeyondThreshold : Bool) : Bool :=
  movedBeyondThreshold

/-! ## Simulation control (src/components/GraphCanvas.tsx lines 85-98 and
178-192) -/

/-- Modelled from the spec: the scalar control state of the force simulation,
namely its temperature (alpha), target temperature, and whether its internal
timer is running. -/
structure SimControl where
  alpha : ℚ
  alphaTarget : ℚ
  running : Bool
  deriving DecidableEq

/-- From src/components/GraphCanvas.tsx lines 85-98 (the simulation update
effect, run on every node or link change); the effect of the alpha and
restart calls on the control state is modelled from the spec: alpha is set to
the maximum temperature 1 and the simulation is restarted unconditionally,
whatever state it was in. -/
def updateSimulationData (s : SimControl) : SimControl :=
  { s with alpha := 1, running := true }

/-- From src/components/GraphCanvas.tsx lines 179-183 (the drag start
handler); the alphaTarget and restart calls are modelled from the spec.  The
active flag reports another drag gesture already in progress, in which case
the handler does nothing. -/
def dragStartedSim (active : Bool) (s : SimControl) : SimControl :=
  if active then s else { s with alphaTarget := 3 / 10, running := true }

/-- From src/components/GraphCanvas.tsx lines 184-187: the drag move handler
only rewrites the pinned coordinate and leaves the simulation control state
untouched. -/
def draggedSim (s : SimControl) : SimControl := s

/-- From src/components/GraphCanvas.tsx lines 188-192 (the drag end handler);
the alphaTarget call is modelled from the spec: the target temperature is
cooled back to zero when no other gesture remains active. -/
def dragEndedSim (active : Bool) (s : SimControl) : SimControl :=
  if active then s else { s with alphaTarget := 0 }

/-! ## Drag pinning and the simulation tick -/

/-- Per-node simulation state: position, velocity, and the optional pin
coordinate (fx, fy) the drag handlers write. -/
structure SimNode where
  x : ℚ
  y : ℚ
  vx : ℚ
  vy : ℚ
  fx : Option ℚ
  fy : Option ℚ
  deriving DecidableEq

/-- From src/components/GraphCanvas.tsx lines 179-183: the drag start handler
pins the node at its current position. -/
def dragStarted (n : SimNode) : SimNode :=
  { n with fx := some n.x, fy := some n.y }

/-- From src/components/GraphCanvas.tsx lines 184-187: each drag move rewrites
the pin to the pointer coordinate supplied by the event. -/
def dragged (ex ey : ℚ) (n : SimNode) : SimNode :=
  { n with fx := some ex, fy := some ey }

/-- From src/components/GraphCanvas.tsx lines 188-192: releasing the drag
unpins the node. -/
def dragEnded (n : SimNode) : SimNode :=
  { n with fx := none, fy := none }

/-- Modelled from the spec: one integration step of the force layout engine
(not in the repository; the source hands the node to it via
forceSimulation).  An arbitrary force pass adds some velocity increment,
then each axis integrates: an unpinned axis moves by the decayed velocity,
while a pinned axis snaps the position to the pin and zeroes the velocity,
so no force-derived displacement is applied to a pinned node. -/
def tick (force : SimNode → ℚ × ℚ) (vd : ℚ) (n : SimNode) : SimNode :=
  let fv := force n
  let ax :=
    match n.fx with
    | none => ((n.vx + fv.1) * vd, n.x + (n.vx + fv.1) * vd)
    | some px => (0, px)
  let ay :=
    match n.fy with
    | none => ((n.vy + fv.2) * vd, n.y + (n.vy + fv.2) * vd)
    | some py => (0, py)
  { n with x := ax.2, vx := ax.1, y := ay.2, vy := ay.1 }

/-- Modelled from the spec: a run of k simulation ticks, each applying a
possibly different force pass (other nodes may have moved between ticks). -/
def ticks (forces : Nat → SimNode → ℚ × ℚ) (vd : ℚ) : Nat → SimNode → SimNode
  | 0, n => n
  | k + 1, n => ticks forces vd k (tick (forces k) vd n)

/-! ## View transform controller (src/components/GraphCanvas.tsx lines 55-62
and 233-278) -/

/-- View transform: scale factor and translation, as held by the zoom
behavior. -/
structure ZoomTransform where
  k : ℚ
  x : ℚ
  y : ℚ
  deriving DecidableEq

/-- The identity transform. -/
def zoomIdentity : ZoomTransform := ⟨1, 0, 0⟩

/-- Modelled from the spec: composing a transform with a further scaling
multiplies the scale factor and keeps the translation. -/
def zoomScale (t : ZoomTransform) (s : ℚ) : ZoomTransform :=
  ⟨t.k * s, t.x, t.y⟩

/-- Modelled from the spec: composing a transform with a further translation
shifts by the scaled offset and keeps the scale factor. -/
def zoomTranslate (t : ZoomTransform) (dx dy : ℚ) : ZoomTransform :=
  ⟨t.k, t.x + t.k * dx, t.y + t.k * dy⟩

/-- Binary minimum on rationals, as computed by the source's numeric min. -/
def minQ (a b : ℚ) : ℚ :=
  if a ≤ b then a else b

/-- Binary maximum on rationals, as computed by the source's numeric max. -/
def maxQ (a b : ℚ) : ℚ :=
  if a ≤ b then b else a

/-- Modelled from the spec: the zoom behavior clamps every requested scale to
the configured scale extent; the extent [0.1, 4] itself is set in
src/components/GraphCanvas.tsx line 56. -/
def clampScale (s : ℚ) : ℚ :=
  maxQ (1 / 10) (minQ 4 s)

/-- From src/components/GraphCanvas.tsx lines 233-237 (handleZoomIn):
multiply the current scale by 1.2, clamped to the scale extent. -/
def handleZoomIn (s : ℚ) : ℚ :=
  clampScale (s * (6 / 5))

/-- From src/components/GraphCanvas.tsx lines 239-243 (handleZoomOut):
multiply the current scale by 0.8, clamped to the scale extent. -/
def handleZoomOut (s : ℚ) : ℚ :=
  clampScale (s * (4 / 5))

/-- Minimum of a list of rationals, with the source's fallback of 0 on an
empty list. -/
def listMinQ : List ℚ → ℚ
  | [] => 0
  | a :: l => l.foldl minQ a

/-- Maximum of a list of rationals, with the source's fallback of 0 on an
empty list. -/
def listMaxQ : List ℚ → ℚ
  | [] => 0
  | a :: l => l.foldl maxQ a

/-- From src/components/GraphCanvas.tsx lines 245-278 (handleFitView): with
no nodes, or with a zero-width or zero-height bounding box, return without
touching the transform (none); otherwise fit the bounding box into the
viewport minus padding, with the scale capped at 1.5, and center on the
bounding-box midpoint. -/
def handleFitView (width height : ℚ) (nodes : List (ℚ × ℚ)) : Option ZoomTransform :=
  if nodes.length = 0 then none
  else
    let padding : ℚ := 100
    let xMin := listMinQ (nodes.map Prod.fst)
    let xMax := listMaxQ (nodes.map Prod.fst)
    let yMin := listMinQ (nodes.map Prod.snd)
    let yMax := listMaxQ (nodes.map Prod.snd)
    let graphWidth := xMax - xMin
    let graphHeight := yMax - yMin
    let midX := (xMin + xMax) / 2
    let midY := (yMin + yMax) / 2
    if graphWidth = 0 ∨ graphHeight = 0 then none
    else
      let scale := minQ (minQ ((width - padding) / graphWidth)
        ((height - padding) / graphHeight)) (3 / 2)
      some (zoomTranslate (zoomScale (zoomTranslate zoomIdentity (width / 2) (height / 2))
        scale) (-midX) (-midY))

/-! ## Theorems -/

/-- C2: In connection mode, the first node click selects that node as source
and emits nothing; a subsequent click on a different node B emits exactly one
connect(source, B) request, clears the source selection and exits connection
mode; a subsequent click on the source node instead clears the selection
(returning to awaiting-source) and produces no link. -/
theorem connect_gesture_transitions (a b : String) (hab : b ≠ a) :
    handleNodeClick ⟨true, none⟩ a false = (⟨true, some a⟩, []) ∧
    handleNodeClick ⟨true, some a⟩ b false = (⟨false, none⟩, [OutEvent.connect a b]) ∧
    handleNodeClick ⟨true, some a⟩ a false = (⟨true, none⟩, []) := by
  refine ⟨rfl, ?_, ?_⟩
  · simp [handleNodeClick, hab]
  · simp [handleNodeClick]

theorem connect_gesture_witness :
    ("n2" : String) ≠ "n1" ∧
    (handleNodeClick ⟨true, none⟩ "n1" false = (⟨true, some "n1"⟩, []) ∧
     handleNodeClick ⟨true, some "n1"⟩ "n2" false =
       (⟨false, none⟩, [OutEvent.connect "n1" "n2"]) ∧
     handleNodeClick ⟨true, some "n1"⟩ "n1" false = (⟨true, none⟩, [])) :=
  ⟨by decide, connect_gesture_transitions "n1" "n2" (by decide)⟩

/-- C9: A pointer sequence that completes a drag (moved beyond the click
threshold, hence default-prevented) never also fires a node-click or connect
event: the click handler returns immediately, emitting nothing and leaving
the UI state unchanged, in every state. -/
theorem drag_click_exclusive (st : UIState) (nodeId : String) :
    handleNodeClick st nodeId (dragClickDefaultPrevented true) = (st, []) := by
  simp [handleNodeClick, dragClickDefaultPrevented]

/-- C10: The principle-distillation call with an empty topic string returns
the fixed string "No input provided." for every role argument and every
behavior of the external model, and performs no model invocation at all. -/
theorem empty_input_short_circuit (role : String) (o : TextOutcome) :
    gatekeeperTranslate role "" o = .ok "No input provided." ∧
    gatekeeperModelCalls role "" = 0 := by
  constructor <;> rfl

/-- C6: A node or link set change reheats the simulation to the maximum
temperature 1 and restarts it, from every prior state (so a reheat request
arriving while the simulation is cooling or idle is never dropped); a drag
start partially reheats to the non-zero target temperature 0.3 and restarts;
a drag move leaves the controller untouched (the target is held for the
duration of the drag); release cools the target back to zero. -/
theorem reheat_on_change_and_drag (s : SimControl) :
    (updateSimulationData s).alpha = 1 ∧
    (updateSimulationData s).running = true ∧
    (dragStartedSim false s).alphaTarget = 3 / 10 ∧
    (dragStartedSim false s).alphaTarget ≠ 0 ∧
    (dragStartedSim false s).running = true ∧
    draggedSim s = s ∧
    (dragEndedSim false s).alphaTarget = 0 := by
  refine ⟨rfl, rfl, ?_, ?_, ?_, rfl, ?_⟩ <;> simp [dragStartedSim, dragEndedSim]

/-- C4 counterexample: the principle-distillation call, on a failed model
call, resolves to an error value - the rethrown exception reaching its caller
- not to a degraded placeholder result, refuting the claim that every agent
interface call degrades instead of propagating. -/
theorem agent_failure_propagates_counterexample :
    gatekeeperTranslate "Student" "Black Holes" TextOutcome.throws =
      Except.error AgentError.apiFailure ∧
    isOkExcept (gatekeeperTranslate "Student" "Black Holes" TextOutcome.throws) = false := by
  constructor <;> rfl

/-- C4 amended: the brainstorming, image-generation and connection-elaboration
calls resolve to typed degraded results on every failure mode; the
principle-distillation, topic-elaboration and synthesis calls instead rethrow
the failure to their caller in the application layer, which catches it there
and degrades it to a status message. -/
theorem agent_failures_localized
    (principle role sys prompt topicTitle topicCtx userRole userInput
      conceptTitle conceptBody expertRole : String)
    (sel : List String) (ob : JsonOutcome BrainstormResult) (oi : ImageOutcome)
    (ot : TextOutcome) (hui : ¬ userInput = "") :
    isOkExcept (getExpertBrainstorm principle role sys ob) = true ∧
    isOkExcept (generateConceptImage prompt oi) = true ∧
    isOkExcept (generateDeepConnection userRole topicCtx conceptTitle conceptBody
      expertRole ot) = true ∧
    gatekeeperTranslate role userInput TextOutcome.throws =
      Except.error AgentError.apiFailure ∧
    generateTopicContent topicTitle topicCtx expertRole JsonOutcome.throws =
      Except.error AgentError.apiFailure ∧
    synthesizeRoadmap userRole principle sel TextOutcome.throws =
      Except.error AgentError.apiFailure ∧
    handleStartStatus role userInput TextOutcome.throws = "Error processing input." := by
  refine ⟨?_, ?_, ?_, ?_, rfl, rfl, ?_⟩
  · cases ob <;> rfl
  · cases oi <;> rfl
  · cases ot <;> rfl
  · simp [gatekeeperTranslate, hui]
  · simp [handleStartStatus, gatekeeperTranslate, hui]

theorem agent_failures_localized_witness :
    ¬ ("Black Holes" : String) = "" ∧
    (isOkExcept (getExpertBrainstorm "p" "Chef" "s" JsonOutcome.throws) = true ∧
     isOkExcept (generateConceptImage "img" ImageOutcome.throws) = true ∧
     isOkExcept (generateDeepConnection "Student" "ctx" "ct" "cb" "Chef"
       TextOutcome.throws) = true ∧
     gatekeeperTranslate "Chef" "Black Holes" TextOutcome.throws =
       Except.error AgentError.apiFailure ∧
     generateTopicContent "tt" "ctx" "Chef" JsonOutcome.throws =
       Except.error AgentError.apiFailure ∧
     synthesizeRoadmap "Student" "p" [] TextOutcome.throws =
       Except.error AgentError.apiFailure ∧
     handleStartStatus "Chef" "Black Holes" TextOutcome.throws =
       "Error processing input.") :=
  ⟨by decide,
   agent_failures_localized "p" "Chef" "s" "img" "tt" "ctx" "Student" "Black Holes"
     "ct" "cb" "Chef" [] JsonOutcome.throws ImageOutcome.throws TextOutcome.throws
     (by decide)⟩

/-- C8 counterexample: at current scale 1, handleZoomOut yields 0.8, not the
claimed 0.833 - the code multiplies by 0.8 on zoom out. -/
theorem zoom_out_factor_counterexample :
    handleZoomOut 1 = 4 / 5 ∧ handleZoomOut 1 ≠ 833 / 1000 := by
  constructor <;> norm_num [handleZoomOut, clampScale, maxQ, minQ]

lemma minQ_le_right (a b : ℚ) : minQ a b ≤ b := by
  unfold minQ
  split <;> linarith

lemma clampScale_le_four (s : ℚ) : clampScale s ≤ 4 := by
  unfold clampScale maxQ minQ
  split_ifs <;> linarith

lemma tenth_le_clampScale (s : ℚ) : 1 / 10 ≤ clampScale s := by
  unfold clampScale maxQ minQ
  split_ifs <;> linarith

lemma clampScale_eq_self (s : ℚ) (hl : 1 / 10 ≤ s) (hr : s ≤ 4) :
    clampScale s = s := by
  unfold clampScale maxQ minQ
  split_ifs <;> first | rfl | linarith

lemma handleZoomIn_le_four (s : ℚ) : handleZoomIn s ≤ 4 :=
  clampScale_le_four _

lemma tenth_le_handleZoomOut (s : ℚ) : 1 / 10 ≤ handleZoomOut s :=
  tenth_le_clampScale _

/-- C8 amended: zoomIn multiplies the current scale by 1.2 and zoomOut by 0.8
(not 0.833), the result clamped to [0.1, 4]; in particular any number of
repeated zoomIn calls never produces a scale above 4 and any number of
repeated zoomOut calls never produces a scale below 0.1. -/
theorem zoom_scale_bounds (k : ℚ) (n : Nat) (h1 : 1 / 10 ≤ k) (h2 : k ≤ 4)
    (h3 : k * (6 / 5) ≤ 4) (h4 : 1 / 10 ≤ k * (4 / 5)) :
    Nat.iterate handleZoomIn n k ≤ 4 ∧
    1 / 10 ≤ Nat.iterate handleZoomOut n k ∧
    handleZoomIn k = k * (6 / 5) ∧
    handleZoomOut k = k * (4 / 5) := by
  refine ⟨?_, ?_, ?_, ?_⟩
  · cases n with
    | zero => exact h2
    | succ m =>
        rw [Function.iterate_succ_apply']
        exact handleZoomIn_le_four _
  · cases n with
    | zero => exact h1
    | succ m =>
        rw [Function.iterate_succ_apply']
        exact tenth_le_handleZoomOut _
  · exact clampScale_eq_self _ (by nlinarith) h3
  · exact clampScale_eq_self _ h4 (by nlinarith)

theorem zoom_scale_bounds_witness :
    ((1 : ℚ) / 10 ≤ 1 ∧ (1 : ℚ) ≤ 4 ∧ (1 : ℚ) * (6 / 5) ≤ 4 ∧
      (1 : ℚ) / 10 ≤ 1 * (4 / 5)) ∧
    (Nat.iterate handleZoomIn 3 1 ≤ 4 ∧
     1 / 10 ≤ Nat.iterate handleZoomOut 3 1 ∧
     handleZoomIn 1 = 1 * (6 / 5) ∧
     handleZoomOut 1 = 1 * (4 / 5)) :=
  ⟨⟨by norm_num, by norm_num, by norm_num, by norm_num⟩,
   zoom_scale_bounds 1 3 (by norm_num) (by norm_num) (by norm_num) (by norm_num)⟩

lemma countPair_addLink_le (s t a b : String) (prev : List Link)
    (h : countPair s t prev ≤ 1) : countPair s t (addLink a b prev) ≤ 1 := by
  unfold addLink
  split_ifs with hg
  · exact h
  · have hg' : prev.any (linkMatches a b) = false := by simpa using hg
    by_cases hm : linkMatches s t ⟨a, b⟩ = true
    · have hab : a = s ∧ b = t := by
        simpa [linkMatches, Bool.and_eq_true, beq_iff_eq] using hm
      have h0 : List.countP (linkMatches s t) prev = 0 := by
        rw [List.countP_eq_zero]
        intro l hl
        have := List.any_eq_false.mp hg' l hl
        rwa [hab.1, hab.2] at this
      rw [countPair, List.countP_append, h0]
      simp [hm]
    · rw [countPair, List.countP_append]
      have h0 : List.countP (linkMatches s t) [Link.mk a b] = 0 := by
        simp [hm]
      rw [h0]
      simpa [countPair] using h

lemma countPair_applyLinkCalls_le (s t : String) (calls : List (String × String)) :
    ∀ init : List Link, countPair s t init ≤ 1 →
      countPair s t (applyLinkCalls calls init) ≤ 1 := by
  induction calls with
  | nil => intro init h; exact h
  | cons c cs ih =>
      intro init h
      simp only [applyLinkCalls, List.foldl_cons]
      exact ih (addLink c.1 c.2 init) (countPair_addLink_le s t c.1 c.2 init h)

/-- C3: Starting from the empty link collection, any sequence of calls to
addLink leaves each ordered (source, target) id pair in the collection at
most once; moreover adding a link whose ordered id pair already exists
leaves the collection unchanged. -/
theorem no_duplicate_links (calls : List (String × String)) (s t a b : String)
    (prev : List Link) (hmem : ∃ l ∈ prev, l.source = a ∧ l.target = b) :
    countPair s t (applyLinkCalls calls []) ≤ 1 ∧ addLink a b prev = prev := by
  constructor
  · exact countPair_applyLinkCalls_le s t calls [] (by simp [countPair])
  · obtain ⟨l, hl, h1, h2⟩ := hmem
    have hany : prev.any (linkMatches a b) = true :=
      List.any_eq_true.mpr ⟨l, hl, by simp [linkMatches, h1, h2]⟩
    simp [addLink, hany]

theorem no_duplicate_links_witness :
    (∃ l ∈ [Link.mk "x" "y"], l.source = "x" ∧ l.target = "y") ∧
    (countPair "x" "y" (applyLinkCalls [("x", "y"), ("x", "y")] []) ≤ 1 ∧
     addLink "x" "y" [Link.mk "x" "y"] = [Link.mk "x" "y"]) :=
  ⟨⟨Link.mk "x" "y", by simp, rfl, rfl⟩,
   no_duplicate_links [("x", "y"), ("x", "y")] "x" "y" "x" "y" [Link.mk "x" "y"]
     ⟨Link.mk "x" "y", by simp, rfl, rfl⟩⟩

lemma tick_fx (f : SimNode → ℚ × ℚ) (vd : ℚ) (n : SimNode) :
    (tick f vd n).fx = n.fx := rfl

lemma tick_fy (f : SimNode → ℚ × ℚ) (vd : ℚ) (n : SimNode) :
    (tick f vd n).fy = n.fy := rfl

lemma tick_x_pinned (f : SimNode → ℚ × ℚ) (vd : ℚ) (n : SimNode) (px : ℚ)
    (hx : n.fx = some px) : (tick f vd n).x = px := by
  simp [tick, hx]

lemma tick_y_pinned (f : SimNode → ℚ × ℚ) (vd : ℚ) (n : SimNode) (py : ℚ)
    (hy : n.fy = some py) : (tick f vd n).y = py := by
  simp [tick, hy]

lemma ticks_pinned (forces : Nat → SimNode → ℚ × ℚ) (vd : ℚ) (px py : ℚ) :
    ∀ (k : Nat) (n : SimNode), n.fx = some px → n.fy = some py →
      (ticks forces vd k n).fx = some px ∧ (ticks forces vd k n).fy = some py ∧
      (1 ≤ k → (ticks forces vd k n).x = px ∧ (ticks forces vd k n).y = py) := by
  intro k
  induction k with
  | zero =>
      intro n hx hy
      exact ⟨hx, hy, fun hk => absurd hk (by decide)⟩
  | succ m ih =>
      intro n hx hy
      have hfx' : (tick (forces m) vd n).fx = some px := by rw [tick_fx]; exact hx
      have hfy' : (tick (forces m) vd n).fy = some py := by rw [tick_fy]; exact hy
      obtain ⟨ha, hb, hc⟩ := ih (tick (forces m) vd n) hfx' hfy'
      refine ⟨ha, hb, fun _ => ?_⟩
      cases Nat.eq_zero_or_pos m with
      | inl h0 =>
          subst h0
          simp only [ticks]
          exact ⟨tick_x_pinned _ _ _ _ hx, tick_y_pinned _ _ _ _ hy⟩
      | inr hpos => exact hc hpos

/-- C5: While a node is pinned by dragging, its position after any positive
number of simulation ticks equals exactly the last externally supplied drag
coordinate, whatever velocity increments any sequence of force passes
contributes; releasing the drag unpins the node. -/
theorem drag_pin_position (forces : Nat → SimNode → ℚ × ℚ) (vd : ℚ) (k : Nat)
    (n : SimNode) (ex ey : ℚ) (hk : 1 ≤ k) :
    (ticks forces vd k (dragged ex ey n)).x = ex ∧
    (ticks forces vd k (dragged ex ey n)).y = ey ∧
    (dragEnded n).fx = none ∧ (dragEnded n).fy = none := by
  obtain ⟨-, -, hc⟩ := ticks_pinned forces vd ex ey k (dragged ex ey n) rfl rfl
  obtain ⟨h1, h2⟩ := hc hk
  exact ⟨h1, h2, rfl, rfl⟩

theorem drag_pin_position_witness :
    1 ≤ 2 ∧
    ((ticks (fun _ _ => (1, 1)) (3 / 5) 2 (dragged 5 7 ⟨0, 0, 0, 0, none, none⟩)).x = 5 ∧
     (ticks (fun _ _ => (1, 1)) (3 / 5) 2 (dragged 5 7 ⟨0, 0, 0, 0, none, none⟩)).y = 7 ∧
     (dragEnded ⟨0, 0, 0, 0, none, none⟩).fx = none ∧
     (dragEnded ⟨0, 0, 0, 0, none, none⟩).fy = none) :=
  ⟨by decide, drag_pin_position (fun _ _ => (1, 1)) (3 / 5) 2 ⟨0, 0, 0, 0, none, none⟩
    5 7 (by decide)⟩

lemma toggleNode_id (nodeId : String) (n : NodeRec) :
    (toggleNode nodeId n).id = n.id := by
  unfold toggleNode; split <;> rfl

lemma toggleNode_x (nodeId : String) (n : NodeRec) :
    (toggleNode nodeId n).x = n.x := by
  unfold toggleNode; split <;> rfl

lemma toggleNode_y (nodeId : String) (n : NodeRec) :
    (toggleNode nodeId n).y = n.y := by
  unfold toggleNode; split <;> rfl

lemma seedNode_id (dflt : String → ℚ × ℚ) (n : NodeRec) :
    (seedNode dflt n).id = n.id := by
  unfold seedNode; split <;> rfl

lemma seedNode_eq_self (dflt : String → ℚ × ℚ) (m : NodeRec) (px py : ℚ)
    (hmx : m.x = some px) (hmy : m.y = some py) : seedNode dflt m = m := by
  unfold seedNode
  rw [hmx, hmy]

lemma find?_map_of_id (f : NodeRec → NodeRec) (hid : ∀ n, (f n).id = n.id)
    (l : List NodeRec) (nodeId : String) :
    (l.map f).find? (fun n => n.id == nodeId) =
      (l.find? (fun n => n.id == nodeId)).map f := by
  induction l with
  | nil => rfl
  | cons a l ih =>
      cases h : (a.id == nodeId) with
      | true =>
          rw [List.map_cons, List.find?_cons_of_pos _ (by simp [hid, h]),
            List.find?_cons_of_pos _ (by simp [h])]
          rfl
      | false =>
          rw [List.map_cons, List.find?_cons_of_neg _ (by simp [hid, h]),
            List.find?_cons_of_neg _ (by simp [h]), ih]

/-- C1: Replacing the node collection with new records carrying the same ids
(as the selection-toggle replacement does, possibly changing unrelated
attributes) and re-seeding the simulation leaves every id-matching node that
already had a position at exactly that previous position - it is not reset
to a default coordinate, so the node's position is continuous across the
replacement. -/
theorem identity_reseed_preserves_position (nodes : List NodeRec)
    (toggledId lookId : String) (dflt : String → ℚ × ℚ) (n : NodeRec) (px py : ℚ)
    (hf : findById nodes lookId = some n) (hx : n.x = some px) (hy : n.y = some py) :
    ∃ n', findById (seedNodes dflt (toggleNodeSelection toggledId nodes)) lookId =
        some n' ∧ n'.x = some px ∧ n'.y = some py ∧ n'.id = n.id := by
  have hxy : (toggleNode toggledId n).x = some px := by rw [toggleNode_x]; exact hx
  have hyy : (toggleNode toggledId n).y = some py := by rw [toggleNode_y]; exact hy
  have hseed : seedNode dflt (toggleNode toggledId n) = toggleNode toggledId n :=
    seedNode_eq_self dflt _ px py hxy hyy
  refine ⟨seedNode dflt (toggleNode toggledId n), ?_, ?_, ?_, ?_⟩
  · unfold findById seedNodes toggleNodeSelection
    unfold findById at hf
    rw [List.map_map,
      find?_map_of_id (seedNode dflt ∘ toggleNode toggledId)
        (fun m => by simp [Function.comp, seedNode_id, toggleNode_id]) nodes lookId,
      hf]
    rfl
  · rw [hseed]; exact hxy
  · rw [hseed]; exact hyy
  · rw [hseed]; exact toggleNode_id toggledId n

theorem identity_reseed_witness :
    findById [NodeRec.mk "a" "L" "C" false (some 5) (some 7)] "a" =
      some (NodeRec.mk "a" "L" "C" false (some 5) (some 7)) ∧
    (∃ n', findById (seedNodes (fun _ => (0, 0)) (toggleNodeSelection "a"
        [NodeRec.mk "a" "L" "C" false (some 5) (some 7)])) "a" = some n' ∧
      n'.x = some 5 ∧ n'.y = some 7 ∧ n'.id = "a") :=
  ⟨rfl, identity_reseed_preserves_position
    [NodeRec.mk "a" "L" "C" false (some 5) (some 7)] "a" "a" (fun _ => (0, 0))
    (NodeRec.mk "a" "L" "C" false (some 5) (some 7)) 5 7 rfl rfl rfl⟩

lemma foldl_minQ_const (c : ℚ) : ∀ l : List ℚ, (∀ x ∈ l, x = c) → l.foldl minQ c = c := by
  intro l
  induction l with
  | nil => intro _; rfl
  | cons a l ih =>
      intro h
      have ha : a = c := h a (List.mem_cons_self a l)
      have hcc : minQ c c = c := by unfold minQ; split <;> rfl
      rw [List.foldl_cons, ha, hcc]
      exact ih (fun x hx => h x (List.mem_cons_of_mem _ hx))

lemma foldl_maxQ_const (c : ℚ) : ∀ l : List ℚ, (∀ x ∈ l, x = c) → l.foldl maxQ c = c := by
  intro l
  induction l with
  | nil => intro _; rfl
  | cons a l ih =>
      intro h
      have ha : a = c := h a (List.mem_cons_self a l)
      have hcc : maxQ c c = c := by unfold maxQ; split <;> rfl
      rw [List.foldl_cons, ha, hcc]
      exact ih (fun x hx => h x (List.mem_cons_of_mem _ hx))

lemma listMinQ_const (c : ℚ) (a : ℚ) (l : List ℚ) (h : ∀ x ∈ a :: l, x = c) :
    listMinQ (a :: l) = c := by
  have ha : a = c := h a (List.mem_cons_self a l)
  unfold listMinQ
  rw [ha]
  exact foldl_minQ_const c l (fun x hx => h x (List.mem_cons_of_mem _ hx))

lemma listMaxQ_const (c : ℚ) (a : ℚ) (l : List ℚ) (h : ∀ x ∈ a :: l, x = c) :
    listMaxQ (a :: l) = c := by
  have ha : a = c := h a (List.mem_cons_self a l)
  unfold listMaxQ
  rw [ha]
  exact foldl_maxQ_const c l (fun x hx => h x (List.mem_cons_of_mem _ hx))

lemma handleFitView_coincident (w h : ℚ) (p q : ℚ × ℚ) (rest : List (ℚ × ℚ))
    (hall : ∀ x ∈ p :: rest, x = q) : handleFitView w h (p :: rest) = none := by
  have hx : listMinQ ((p :: rest).map Prod.fst) = q.1 := by
    rw [List.map_cons]
    exact listMinQ_const q.1 p.1 (rest.map Prod.fst) (by
      intro x hx
      rcases List.mem_cons.mp hx with h1 | h1
      · rw [h1, hall p (List.mem_cons_self p rest)]
      · obtain ⟨r, hr, hrx⟩ := List.mem_map.mp h1
        rw [← hrx, hall r (List.mem_cons_of_mem _ hr)])
  have hX : listMaxQ ((p :: rest).map Prod.fst) = q.1 := by
    rw [List.map_cons]
    exact listMaxQ_const q.1 p.1 (rest.map Prod.fst) (by
      intro x hx
      rcases List.mem_cons.mp hx with h1 | h1
      · rw [h1, hall p (List.mem_cons_self p rest)]
      · obtain ⟨r, hr, hrx⟩ := List.mem_map.mp h1
        rw [← hrx, hall r (List.mem_cons_of_mem _ hr)])
  have hlen : ¬ ((p :: rest).length = 0) := by simp
  simp only [handleFitView, if_neg hlen]
  rw [hx, hX]
  simp

/-- C7: fitToView with 0 or 1 nodes, or with all nodes at an identical
coordinate (zero-width or zero-height bounding box), returns without
modifying the transform; whenever it does produce a transform, the computed
scale never exceeds the max-scale cap 1.5. -/
theorem fit_view_safety (w h : ℚ) (nodes : List (ℚ × ℚ)) (q : ℚ × ℚ)
    (t : ZoomTransform) :
    (nodes.length ≤ 1 → handleFitView w h nodes = none) ∧
    ((∀ p ∈ nodes, p = q) → handleFitView w h nodes = none) ∧
    (handleFitView w h nodes = some t → t.k ≤ 3 / 2) := by
  refine ⟨?_, ?_, ?_⟩
  · intro hlen
    cases nodes with
    | nil => rfl
    | cons p rest =>
        have hr : rest = [] := by
          cases rest with
          | nil => rfl
          | cons b l => simp at hlen
        subst hr
        exact handleFitView_coincident w h p p [] (fun x hx => by simpa using hx)
  · intro hall
    cases nodes with
    | nil => rfl
    | cons p rest => exact handleFitView_coincident w h p q rest hall
  · intro ht
    simp only [handleFitView] at ht
    split_ifs at ht
    have heq := (Option.some.injEq _ _).mp ht
    rw [← heq]
    simp only [zoomTranslate, zoomScale, zoomIdentity, one_mul]
    exact minQ_le_right _ _

theorem fit_view_safety_witness :
    handleFitView 800 600 [((5 : ℚ), (5 : ℚ))] = none ∧
    handleFitView 800 600 [((5 : ℚ), 5), (5, 5)] = none ∧
    (ZoomTransform.mk (3 / 2) 325 (525 / 2)).k ≤ 3 / 2 :=
  ⟨(fit_view_safety 800 600 [((5 : ℚ), (5 : ℚ))] (5, 5) zoomIdentity).1 (by simp),
   (fit_view_safety 800 600 [((5 : ℚ), 5), (5, 5)] (5, 5) zoomIdentity).2.1 (by simp),
   (fit_view_safety 800 600 [((0 : ℚ), 0), (100, 50)] (0, 0)
       (ZoomTransform.mk (3 / 2) 325 (525 / 2))).2.2
     (by norm_num [handleFitView, listMinQ, listMaxQ, minQ, maxQ, zoomTranslate,
       zoomScale, zoomIdentity])⟩

end Synapse
